import Mathlib

/-!
Shallow embedding of the cloudflare-ddns service (the current revision of the
server: the file with the `authenticate` middleware, the create-or-update
branch in `updateDNS`, and the add-triggered immediate reconciliation in the
POST /domains handler).

The HTTP/network world is modelled as an environment `Env` of oracle answers:
`getPublicIP` either returns an IP or fails (`none`); `getZoneID` and
`getDNSRecordID` return an id or `null` (the JS functions map both "not found"
and a thrown network error to `null`, so a single `Option` faithfully covers
both); `createDNSRecord`/`updateDNSRecord` report success or failure via
`data.success`, which the JS logs and otherwise discards — we record it in the
trace event. Mutable process state (the `domains` array and the contents of
`last_ip.txt`) is `SysState`; file writes and provider calls are recorded as a
list of `Event`s so that ordering and call-count claims can be stated.
-/

/-- A managed domain entry, as stored in `domains.json`: `{ zone, record }`. -/
structure Domain where
  zone : String
  record : String
deriving DecidableEq, Repr

/-- Mutable process state: the in-memory `domains` array (persisted to
`domains.json`) and the content of `last_ip.txt` (`none` = file absent or
unreadable, as returned by `getLastIP`). -/
structure SysState where
  domains : List Domain
  lastIP : Option String
deriving DecidableEq, Repr

/-- Oracle answers of the external world for one pass:
`publicIP` is the result of `getPublicIP` (`none` = lookup failed);
`zoneID z` is the result of `getZoneID z` (`none` = zone not found or the
request threw — the JS returns `null` in both cases);
`recordID zid name` is the result of `getDNSRecordID zid name` likewise;
`upsertOk zid name` is the `data.success` flag the provider returns to
`createDNSRecord`/`updateDNSRecord` for that record. -/
structure Env where
  publicIP : Option String
  zoneID : String → Option String
  recordID : String → String → Option String
  upsertOk : String → String → Bool

/-- Observable actions of a pass or a request handler: provider calls
(with their arguments), plus the two state-store writes `saveLastIP`
and `saveDomains`. -/
inductive Event where
  | callGetZone (zone : String)
  | callGetRecord (zoneID recordName : String)
  | callCreate (zoneID recordName ip : String) (ok : Bool)
  | callUpdate (zoneID recordID recordName ip : String) (ok : Bool)
  | evSaveLastIP (ip : String)
  | evSaveDomains (ds : List Domain)
deriving DecidableEq, Repr

/-- Is this event a write of `last_ip.txt`? -/
def isSaveIPEvent : Event → Bool
  | .evSaveLastIP _ => true
  | _ => false

/-- Is this event a provider call (as opposed to a state-store write)? -/
def isProviderCall : Event → Bool
  | .callGetZone _ => true
  | .callGetRecord _ _ => true
  | .callCreate _ _ _ _ => true
  | .callUpdate _ _ _ _ _ => true
  | _ => false

/-- Is this event a create-or-update (upsert) call for record `name` with
address `ip`? -/
def isUpsertFor (name ip : String) : Event → Bool
  | .callCreate _ r i _ => r = name && i = ip
  | .callUpdate _ _ r i _ => r = name && i = ip
  | _ => false

/-- The loop body of `updateDNS` for one `{ zone, record }` entry:
resolve the zone id (`continue` on `null`), then look up the record id and
either `updateDNSRecord` or `createDNSRecord` with the current IP. -/
def processDomain (env : Env) (ip : String) (d : Domain) : List Event :=
  match env.zoneID d.zone with
  | none => [.callGetZone d.zone]
  | some zid =>
    match env.recordID zid d.record with
    | some rid =>
      [.callGetZone d.zone, .callGetRecord zid d.record,
       .callUpdate zid rid d.record ip (env.upsertOk zid d.record)]
    | none =>
      [.callGetZone d.zone, .callGetRecord zid d.record,
       .callCreate zid d.record ip (env.upsertOk zid d.record)]

/-- The `for (const { zone, record } of domains)` loop of `updateDNS`. -/
def processDomains (env : Env) (ip : String) : List Domain → List Event
  | [] => []
  | d :: ds => processDomain env ip d ++ processDomains env ip ds

/-- The timer-triggered reconciliation pass `updateDNS`:
abort on IP-lookup failure; early-return when the current IP equals the
stored last IP; otherwise run the per-domain loop and finally `saveLastIP`. -/
def updateDNS (env : Env) (st : SysState) : SysState × List Event :=
  match env.publicIP with
  | none => (st, [])
  | some currentIP =>
    if st.lastIP = some currentIP then (st, [])
    else
      ({ st with lastIP := some currentIP },
       processDomains env currentIP st.domains ++ [.evSaveLastIP currentIP])

/-- JS truthiness of an optional request-body string: `undefined` and `""`
are falsy. Used for the `if (!zone || !record)` guards. -/
def jsTruthy : Option String → Bool
  | none => false
  | some s => s ≠ ""

/-- An HTTP response: status code and the `message` of the JSON body. -/
structure Response where
  status : Nat
  message : String
deriving DecidableEq, Repr

/-- The POST /domains handler: validate the body, reject duplicates, push the
new entry and `saveDomains`, then run an immediate single-domain pass
(resolve IP, resolve zone id, look up the record id, update-or-create), and
finally `saveLastIP` only when the current IP differs from the stored one. -/
def postDomains (env : Env) (st : SysState) (zoneField recordField : Option String) :
    SysState × List Event × Response :=
  if ¬ (jsTruthy zoneField ∧ jsTruthy recordField) then
    (st, [], ⟨400, "zone 和 record 是必填項。"⟩)
  else
    match zoneField, recordField with
    | some z, some r =>
      if st.domains.any (fun d => d.zone == z && d.record == r) then
        (st, [], ⟨400, "該domain已存在。"⟩)
      else
        let st1 : SysState := { st with domains := st.domains ++ [⟨z, r⟩] }
        let ev1 : List Event := [.evSaveDomains st1.domains]
        match env.publicIP with
        | none => (st1, ev1, ⟨500, "無法獲取公共 IP。"⟩)
        | some currentIP =>
          match env.zoneID z with
          | none =>
            (st1, ev1 ++ [.callGetZone z], ⟨400, "找不到 Zone ID for zone: " ++ z⟩)
          | some zid =>
            let upEv : Event :=
              match env.recordID zid r with
              | some rid => .callUpdate zid rid r currentIP (env.upsertOk zid r)
              | none => .callCreate zid r currentIP (env.upsertOk zid r)
            let ev2 : List Event := ev1 ++ [.callGetZone z, .callGetRecord zid r, upEv]
            if st1.lastIP = some currentIP then
              (st1, ev2, ⟨201, "domain已新增並即時更新 DNS 記錄。"⟩)
            else
              ({ st1 with lastIP := some currentIP },
               ev2 ++ [.evSaveLastIP currentIP],
               ⟨201, "domain已新增並即時更新 DNS 記錄。"⟩)
    | _, _ => (st, [], ⟨400, "zone 和 record 是必填項。"⟩)

/-- The DELETE /domains handler: validate the body, filter the entry out of
the array (rebinding the `domains` variable to the new array), 404 when
nothing was removed, else `saveDomains`. -/
def deleteDomains (st : SysState) (zoneField recordField : Option String) :
    SysState × List Event × Response :=
  if ¬ (jsTruthy zoneField ∧ jsTruthy recordField) then
    (st, [], ⟨400, "zone 和 record 是必填項。"⟩)
  else
    match zoneField, recordField with
    | some z, some r =>
      let newDomains := st.domains.filter (fun d => ¬ (d.zone = z ∧ d.record = r))
      if newDomains.length = st.domains.length then
        (st, [], ⟨404, "找不到該domain。"⟩)
      else
        ({ st with domains := newDomains }, [.evSaveDomains newDomains],
         ⟨200, "domain已移除。"⟩)
    | _, _ => (st, [], ⟨400, "zone 和 record 是必填項。"⟩)

/-- The `authenticate` middleware: `apiKey && apiKey === API_KEY`.
`headerKey` is the `x-api-key` header (`none` = absent), `apiKeyCfg` the
`API_KEY` environment value (`none` = not configured). An absent or empty
header is falsy; `===` between a string and `undefined` is false. -/
def authenticate (headerKey apiKeyCfg : Option String) : Bool :=
  match headerKey with
  | none => false
  | some k => if k = "" then false else apiKeyCfg == some k

/-- The three routes of the control API. -/
inductive Request where
  | listDomains
  | addDomain (zoneField recordField : Option String)
  | removeDomain (zoneField recordField : Option String)

/-- Request dispatch as wired in the server: `app.use(authenticate)` is
registered before every route, so each request runs the middleware first and
is answered 401 with no further work unless the key matches. -/
def handle (apiKeyCfg headerKey : Option String) (env : Env) (st : SysState) :
    Request → SysState × List Event × Response
  | req =>
    if authenticate headerKey apiKeyCfg then
      match req with
      | .listDomains => (st, [], ⟨200, ""⟩)
      | .addDomain z r => postDomains env st z r
      | .removeDomain z r => deleteDomains st z r
    else (st, [], ⟨401, "未授權的請求。"⟩)

/-!
Interleaving model for the in-flight pass loop. `updateDNS` iterates
`for (const { zone, record } of domains)` over the live module-level array:
the array iterator reads the array object by index up to its current length,
so an element pushed by a concurrent POST /domains (`domains.push(...)`)
before the iterator reaches the end is visited by the same pass. A concurrent
DELETE /domains instead rebinds the variable to a fresh filtered array
(`domains = domains.filter(...)`), which the in-flight iterator never sees.
The `await`s inside the loop body are the points where such handler code can
run. `PassState` is the iterator's view: the array object it holds, the next
index, and the entries visited so far. -/
structure PassState where
  arr : List Domain
  idx : Nat
  attempted : List Domain
deriving DecidableEq, Repr

/-- One interleaved action while a pass is running: the pass advances its
iterator by one entry, or a concurrent POST pushes into the shared array, or
a concurrent DELETE rebinds the module variable (leaving the iterator's
array object untouched). -/
inductive PassAction where
  | attemptNext
  | concurrentAdd (d : Domain)
  | concurrentRemove (zone recordName : String)
deriving DecidableEq, Repr

/-- Effect of one action on the iterator's view. -/
def passStep (s : PassState) : PassAction → PassState
  | .attemptNext =>
    match s.arr[s.idx]? with
    | some d => ⟨s.arr, s.idx + 1, s.attempted ++ [d]⟩
    | none => s
  | .concurrentAdd d => ⟨s.arr ++ [d], s.idx, s.attempted⟩
  | .concurrentRemove _ _ => s

/-- Run a sequence of interleaved actions. -/
def passRun (s : PassState) : List PassAction → PassState
  | [] => s
  | a :: rest => passRun (passStep s a) rest

/-- Does this interleaved action mutate the shared array (a concurrent
POST)? -/
def isConcurrentAdd : PassAction → Bool
  | .concurrentAdd _ => true
  | _ => false

/-! ### Helper lemmas -/

lemma mem_processDomains (env : Env) (ip : String) {ds : List Domain} {d : Domain}
    (hd : d ∈ ds) {e : Event} (he : e ∈ processDomain env ip d) :
    e ∈ processDomains env ip ds := by
  induction ds with
  | nil => cases hd
  | cons a as ih =>
    rcases List.mem_cons.1 hd with h | h
    · subst h
      exact List.mem_append_left _ he
    · exact List.mem_append_right _ (ih h)

lemma callGetZone_mem_processDomain (env : Env) (ip : String) (d : Domain) :
    Event.callGetZone d.zone ∈ processDomain env ip d := by
  rcases hz : env.zoneID d.zone with _ | zid
  · simp [processDomain, hz]
  · rcases hr : env.recordID zid d.record with _ | rid <;>
      simp [processDomain, hz, hr]

lemma not_saveIP_processDomain (env : Env) (ip : String) (d : Domain) :
    ∀ e ∈ processDomain env ip d, isSaveIPEvent e = false := by
  intro e he
  rcases hz : env.zoneID d.zone with _ | zid
  · simp only [processDomain, hz] at he
    simp at he
    simp [he, isSaveIPEvent]
  · rcases hr : env.recordID zid d.record with _ | rid <;>
      simp only [processDomain, hz, hr] at he <;>
      simp at he <;> rcases he with h | h | h <;> simp [h, isSaveIPEvent]

lemma not_saveIP_processDomains (env : Env) (ip : String) (ds : List Domain) :
    ∀ e ∈ processDomains env ip ds, isSaveIPEvent e = false := by
  induction ds with
  | nil => intro e he; cases he
  | cons a as ih =>
    intro e he
    rcases List.mem_append.1 he with h | h
    · exact not_saveIP_processDomain env ip a e h
    · exact ih e h

lemma any_eq_mem (ds : List Domain) (z r : String) :
    ds.any (fun d => d.zone == z && d.record == r) = true ↔ (⟨z, r⟩ : Domain) ∈ ds := by
  rw [List.any_eq_true]
  constructor
  · rintro ⟨d, hd, hp⟩
    simp only [Bool.and_eq_true, beq_iff_eq] at hp
    rcases d with ⟨dz, dr⟩
    rcases hp with ⟨h1, h2⟩
    simp only at h1 h2
    subst h1; subst h2
    exact hd
  · intro h
    exact ⟨⟨z, r⟩, h, by simp⟩

/-! ### Concrete fixtures used by the witness theorems -/

/-- A managed domain whose zone resolves in `envW`. -/
def dA : Domain := ⟨"a.com", "x.a.com"⟩

/-- A managed domain whose zone does not resolve in `envW`. -/
def dB : Domain := ⟨"b.com", "y.b.com"⟩

/-- A concrete environment: the IP lookup succeeds, zone `a.com` resolves,
its record `x.a.com` exists, everything else is not found. -/
def envW : Env where
  publicIP := some "203.0.113.5"
  zoneID := fun z => if z = "a.com" then some "zoneA" else none
  recordID := fun zid r => if zid = "zoneA" && r = "x.a.com" then some "recA" else none
  upsertOk := fun _ _ => true

/-- A concrete environment in which the public-IP lookup fails. -/
def envNoIP : Env where
  publicIP := none
  zoneID := fun _ => none
  recordID := fun _ _ => none
  upsertOk := fun _ _ => false

/-- A concrete state: two managed domains, no stored last IP. -/
def stW : SysState := ⟨[dA, dB], none⟩

/-- A concrete environment for the add-triggered pass: zone `c.com`
resolves, its record does not yet exist. -/
def envC6 : Env where
  publicIP := some "203.0.113.5"
  zoneID := fun z => if z = "c.com" then some "zoneC" else none
  recordID := fun _ _ => none
  upsertOk := fun _ _ => true

/-- A concrete state whose stored last IP already equals the IP that
`envC6` resolves. -/
def stC6 : SysState := ⟨[dA], some "203.0.113.5"⟩

/-- The empty initial state: no managed domains, no stored last IP. -/
def stEmpty : SysState := ⟨[], none⟩

/-- A concrete environment in which every zone resolves, no record exists
yet, and the provider reports failure for every create/update call. -/
def envUpsertFail : Env where
  publicIP := some "203.0.113.5"
  zoneID := fun _ => some "zoneA"
  recordID := fun _ _ => none
  upsertOk := fun _ _ => false

/-- Like `envUpsertFail` but the provider reports success for every
create/update call. -/
def envUpsertOk : Env where
  publicIP := some "203.0.113.5"
  zoneID := fun _ => some "zoneA"
  recordID := fun _ _ => none
  upsertOk := fun _ _ => true

/-! ### Claims -/

/-- C1: in a reconciliation pass, for every domain in scope whose zone ID
resolves, an existing record ID leads to an update call for that record with
the resolved IP, and an absent record ID leads to a create call for that name
with the resolved IP — record absence is handled by the create branch, not
treated as an error. -/
theorem C1_create_or_update (env : Env) (st : SysState) (ip : String)
    (hip : env.publicIP = some ip) (hch : st.lastIP ≠ some ip)
    (d : Domain) (hd : d ∈ st.domains) (zid : String)
    (hz : env.zoneID d.zone = some zid) :
    (∀ rid, env.recordID zid d.record = some rid →
      Event.callUpdate zid rid d.record ip (env.upsertOk zid d.record)
        ∈ (updateDNS env st).2)
    ∧ (env.recordID zid d.record = none →
      Event.callCreate zid d.record ip (env.upsertOk zid d.record)
        ∈ (updateDNS env st).2) := by
  have htr : (updateDNS env st).2 =
      processDomains env ip st.domains ++ [.evSaveLastIP ip] := by
    simp [updateDNS, hip, hch]
  constructor
  · intro rid hrid
    rw [htr]
    exact List.mem_append_left _
      (mem_processDomains env ip hd (by simp [processDomain, hz, hrid]))
  · intro hrid
    rw [htr]
    exact List.mem_append_left _
      (mem_processDomains env ip hd (by simp [processDomain, hz, hrid]))

/-- Witness for C1 at a concrete input: domain `dA` in state `stW` under
`envW`, whose zone resolves to `zoneA`. -/
theorem C1_create_or_update_witness :
    (∀ rid, envW.recordID "zoneA" dA.record = some rid →
      Event.callUpdate "zoneA" rid dA.record "203.0.113.5"
        (envW.upsertOk "zoneA" dA.record) ∈ (updateDNS envW stW).2)
    ∧ (envW.recordID "zoneA" dA.record = none →
      Event.callCreate "zoneA" dA.record "203.0.113.5"
        (envW.upsertOk "zoneA" dA.record) ∈ (updateDNS envW stW).2) :=
  C1_create_or_update envW stW "203.0.113.5" rfl (by simp [stW]) dA
    (by simp [stW]) "zoneA" (by simp [envW, dA])

/-- C2: a timer-triggered pass leaves the state untouched and makes zero
provider calls exactly when the resolved IP equals the stored last IP; when
no last IP is stored, the pass always proceeds to the per-domain loop and
commits the resolved IP, whatever it is. -/
theorem C2_fast_path_iff (env : Env) (st : SysState) (ip : String)
    (hip : env.publicIP = some ip) :
    (updateDNS env st = (st, []) ↔ st.lastIP = some ip)
    ∧ (st.lastIP = none →
        updateDNS env st =
          ({ st with lastIP := some ip },
           processDomains env ip st.domains ++ [.evSaveLastIP ip])) := by
  refine ⟨⟨?_, ?_⟩, ?_⟩
  · intro h
    by_contra hne
    have hu : updateDNS env st =
        ({ st with lastIP := some ip },
         processDomains env ip st.domains ++ [.evSaveLastIP ip]) := by
      simp [updateDNS, hip, hne]
    rw [hu] at h
    have hfst := congrArg (fun p => p.1.lastIP) h
    simp only at hfst
    exact hne hfst.symm
  · intro h
    simp [updateDNS, hip, h]
  · intro h
    simp [updateDNS, hip, h]

/-- Witness for C2 at a concrete input: environment `envW`, state `stW`
(no stored last IP). -/
theorem C2_fast_path_iff_witness :
    (updateDNS envW stW = (stW, []) ↔ stW.lastIP = some "203.0.113.5")
    ∧ (stW.lastIP = none →
        updateDNS envW stW =
          ({ stW with lastIP := some "203.0.113.5" },
           processDomains envW "203.0.113.5" stW.domains
             ++ [.evSaveLastIP "203.0.113.5"])) :=
  C2_fast_path_iff envW stW "203.0.113.5" rfl

/-- C3: every timer-triggered pass writes `last_ip.txt` at most once, and
never before its final step: every event before the last one is a provider
call or a domains write, not a last-IP write. -/
theorem C3_commit_once_at_end (env : Env) (st : SysState) :
    ((updateDNS env st).2.filter isSaveIPEvent).length ≤ 1
    ∧ ∀ e ∈ (updateDNS env st).2.dropLast, isSaveIPEvent e = false := by
  rcases hip : env.publicIP with _ | ip
  · simp [updateDNS, hip]
  · by_cases hch : st.lastIP = some ip
    · simp [updateDNS, hip, hch]
    · have hu : (updateDNS env st).2 =
          processDomains env ip st.domains ++ [.evSaveLastIP ip] := by
        simp [updateDNS, hip, hch]
      rw [hu]
      constructor
      · rw [List.filter_append]
        have h1 : (processDomains env ip st.domains).filter isSaveIPEvent = [] := by
          rw [List.filter_eq_nil_iff]
          intro e he
          simp [not_saveIP_processDomains env ip st.domains e he]
        rw [h1]
        simp [isSaveIPEvent]
      · have h2 : (processDomains env ip st.domains ++ [Event.evSaveLastIP ip]).dropLast
            = processDomains env ip st.domains := by
          rw [List.dropLast_concat]
        rw [h2]
        exact not_saveIP_processDomains env ip st.domains

/-- C4: when the public-IP lookup fails, the pass returns immediately with
the state unchanged and an empty event trace (no provider calls, no state
writes). -/
theorem C4_abort_on_ip_failure (env : Env) (st : SysState)
    (h : env.publicIP = none) :
    updateDNS env st = (st, []) := by
  simp [updateDNS, h]

/-- Witness for C4 at a concrete input: environment `envNoIP`, state `stW`. -/
theorem C4_abort_on_ip_failure_witness :
    updateDNS envNoIP stW = (stW, []) :=
  C4_abort_on_ip_failure envNoIP stW rfl

/-- C5: per-domain isolation — in a pass over two or more domains, under any
environment (including ones where some zone lookups, record lookups or
upserts fail), every domain in the snapshot still gets its zone-lookup
attempt, and the pass still runs to completion, committing the resolved IP. -/
theorem C5_per_domain_isolation (env : Env) (st : SysState) (ip : String)
    (hip : env.publicIP = some ip) (hch : st.lastIP ≠ some ip)
    (_hlen : 2 ≤ st.domains.length) :
    (∀ d ∈ st.domains, Event.callGetZone d.zone ∈ (updateDNS env st).2)
    ∧ (updateDNS env st).1.lastIP = some ip := by
  have hu : updateDNS env st =
      ({ st with lastIP := some ip },
       processDomains env ip st.domains ++ [.evSaveLastIP ip]) := by
    simp [updateDNS, hip, hch]
  rw [hu]
  constructor
  · intro d hd
    exact List.mem_append_left _
      (mem_processDomains env ip hd (callGetZone_mem_processDomain env ip d))
  · rfl

/-- Witness for C5 at a concrete input: state `stW` holds `dA` and `dB`;
in `envW`, zone `b.com` does not resolve, yet both zone lookups are
attempted and the IP is committed. -/
theorem C5_per_domain_isolation_witness :
    (∀ d ∈ stW.domains, Event.callGetZone d.zone ∈ (updateDNS envW stW).2)
    ∧ (updateDNS envW stW).1.lastIP = some "203.0.113.5" :=
  C5_per_domain_isolation envW stW "203.0.113.5" rfl (by simp [stW])
    (by simp [stW])

/-- C6: the add-triggered single-domain pass performs the record lookup and
an upsert for the new record under any stored last IP — in particular even
when the resolved IP equals it — and it writes `last_ip.txt` exactly when the
resolved IP differs from the stored one. -/
theorem C6_add_pass_ignores_fast_path (env : Env) (st : SysState)
    (z r ip zid : String) (hz : z ≠ "") (hr : r ≠ "")
    (hdup : (⟨z, r⟩ : Domain) ∉ st.domains)
    (hip : env.publicIP = some ip) (hzid : env.zoneID z = some zid) :
    (Event.callGetRecord zid r ∈ (postDomains env st (some z) (some r)).2.1
      ∧ ∃ e ∈ (postDomains env st (some z) (some r)).2.1, isUpsertFor r ip e = true)
    ∧ (Event.evSaveLastIP ip ∈ (postDomains env st (some z) (some r)).2.1
        ↔ st.lastIP ≠ some ip) := by
  have hany : st.domains.any (fun d => d.zone == z && d.record == r) = false := by
    rw [Bool.eq_false_iff]
    intro h
    exact hdup ((any_eq_mem st.domains z r).1 h)
  rcases hrid : env.recordID zid r with _ | rid <;>
    by_cases hlast : st.lastIP = some ip <;>
    simp only [postDomains, jsTruthy, hz, hr, hany, hip, hzid, hrid, hlast] <;>
    simp [hz, hr, hlast, isUpsertFor]

/-- Witness for C6 at a concrete input: adding `c.com`/`w.c.com` to state
`stC6` (whose stored last IP already equals the resolved IP) under `envC6`. -/
theorem C6_add_pass_ignores_fast_path_witness :
    (Event.callGetRecord "zoneC" "w.c.com"
        ∈ (postDomains envC6 stC6 (some "c.com") (some "w.c.com")).2.1
      ∧ ∃ e ∈ (postDomains envC6 stC6 (some "c.com") (some "w.c.com")).2.1,
          isUpsertFor "w.c.com" "203.0.113.5" e = true)
    ∧ (Event.evSaveLastIP "203.0.113.5"
        ∈ (postDomains envC6 stC6 (some "c.com") (some "w.c.com")).2.1
        ↔ stC6.lastIP ≠ some "203.0.113.5") :=
  C6_add_pass_ignores_fast_path envC6 stC6 "c.com" "w.c.com" "203.0.113.5"
    "zoneC" (by decide) (by decide) (by decide) rfl (by simp [envC6])

/-- C7 counterexample: when the create call for the new record fails
(`data.success = false`), the handler still answers 201 — byte-identical to
the full-success response — so "added, but live update failed" is not
distinguished from full success for provider-level upsert failures. -/
theorem C7_upsert_failure_not_distinguished :
    (postDomains envUpsertFail stEmpty (some "a.com") (some "x.a.com")).2.2 =
      (postDomains envUpsertOk stEmpty (some "a.com") (some "x.a.com")).2.2
    ∧ Event.callCreate "zoneA" "x.a.com" "203.0.113.5" false
        ∈ (postDomains envUpsertFail stEmpty (some "a.com") (some "x.a.com")).2.1
    ∧ (postDomains envUpsertFail stEmpty (some "a.com") (some "x.a.com")).2.2.status
        = 201 := by
  decide

/-- C7 (amended): Add inserts the pair and persists the set before the
immediate reconciliation; an IP-resolution failure (500) or zone-resolution
failure (400) is reported to the caller while the domain remains added and
persisted; but once the IP and zone resolve, the handler answers 201
regardless of the create/update call's outcome, so an upsert-level failure
is not distinguished from full success. -/
theorem C7_add_persists_and_reports (env : Env) (st : SysState) (z r : String)
    (hz : z ≠ "") (hr : r ≠ "") (hdup : (⟨z, r⟩ : Domain) ∉ st.domains) :
    ((⟨z, r⟩ : Domain) ∈ (postDomains env st (some z) (some r)).1.domains
      ∧ Event.evSaveDomains (postDomains env st (some z) (some r)).1.domains
          ∈ (postDomains env st (some z) (some r)).2.1)
    ∧ (env.publicIP = none →
        (postDomains env st (some z) (some r)).2.2.status = 500)
    ∧ (∀ ip, env.publicIP = some ip → env.zoneID z = none →
        (postDomains env st (some z) (some r)).2.2.status = 400)
    ∧ (∀ ip zid, env.publicIP = some ip → env.zoneID z = some zid →
        (postDomains env st (some z) (some r)).2.2.status = 201) := by
  have hany : st.domains.any (fun d => d.zone == z && d.record == r) = false := by
    rw [Bool.eq_false_iff]
    intro h
    exact hdup ((any_eq_mem st.domains z r).1 h)
  rcases hip : env.publicIP with _ | ip
  · simp [postDomains, jsTruthy, hz, hr, hany, hip]
  · rcases hzid : env.zoneID z with _ | zid
    · simp [postDomains, jsTruthy, hz, hr, hany, hip, hzid]
    · rcases hrid : env.recordID zid r with _ | rid <;>
        by_cases hlast : st.lastIP = some ip <;>
        simp only [postDomains, jsTruthy, hz, hr, hany, hip, hzid, hrid, hlast] <;>
        simp [hz, hr, hlast]

/-- Witness for C7 (amended) at a concrete input: adding `a.com`/`x.a.com`
to the empty state under `envUpsertFail`, whose create call fails. -/
theorem C7_add_persists_and_reports_witness :
    ((⟨"a.com", "x.a.com"⟩ : Domain)
        ∈ (postDomains envUpsertFail stEmpty (some "a.com") (some "x.a.com")).1.domains
      ∧ Event.evSaveDomains
          (postDomains envUpsertFail stEmpty (some "a.com") (some "x.a.com")).1.domains
          ∈ (postDomains envUpsertFail stEmpty (some "a.com") (some "x.a.com")).2.1)
    ∧ (envUpsertFail.publicIP = none →
        (postDomains envUpsertFail stEmpty (some "a.com") (some "x.a.com")).2.2.status = 500)
    ∧ (∀ ip, envUpsertFail.publicIP = some ip → envUpsertFail.zoneID "a.com" = none →
        (postDomains envUpsertFail stEmpty (some "a.com") (some "x.a.com")).2.2.status = 400)
    ∧ (∀ ip zid, envUpsertFail.publicIP = some ip → envUpsertFail.zoneID "a.com" = some zid →
        (postDomains envUpsertFail stEmpty (some "a.com") (some "x.a.com")).2.2.status = 201) :=
  C7_add_persists_and_reports envUpsertFail stEmpty "a.com" "x.a.com"
    (by decide) (by decide) (by decide)

/-- C8: adding an already-managed pair is rejected with status 400 and the
duplicate-domain message, with the state unchanged and nothing persisted;
moreover both handlers preserve the no-duplicates invariant of the managed
set. -/
theorem C8_duplicate_add_rejected (env : Env) (st : SysState) (z r : String)
    (hz : z ≠ "") (hr : r ≠ "") (hmem : (⟨z, r⟩ : Domain) ∈ st.domains) :
    postDomains env st (some z) (some r) = (st, [], ⟨400, "該domain已存在。"⟩)
    ∧ (∀ env' zf rf, st.domains.Nodup →
        (postDomains env' st zf rf).1.domains.Nodup)
    ∧ (∀ zf rf, st.domains.Nodup →
        (deleteDomains st zf rf).1.domains.Nodup) := by
  have hany : st.domains.any (fun d => d.zone == z && d.record == r) = true :=
    (any_eq_mem st.domains z r).2 hmem
  refine ⟨?_, ?_, ?_⟩
  · simp [postDomains, jsTruthy, hz, hr, hany]
  · intro env' zf rf hnd
    rcases zf with _ | z' <;> rcases rf with _ | r'
    · simpa [postDomains, jsTruthy] using hnd
    · simpa [postDomains, jsTruthy] using hnd
    · simpa [postDomains, jsTruthy] using hnd
    · by_cases hz' : z' = ""
      · simpa [postDomains, jsTruthy, hz'] using hnd
      · by_cases hr' : r' = ""
        · simpa [postDomains, jsTruthy, hz', hr'] using hnd
        · rcases hany' : st.domains.any (fun d => d.zone == z' && d.record == r') with _ | _
          · have hnotmem : (⟨z', r'⟩ : Domain) ∉ st.domains := by
              intro hm
              rw [(any_eq_mem st.domains z' r').2 hm] at hany'
              cases hany'
            have hpush : (st.domains ++ [(⟨z', r'⟩ : Domain)]).Nodup := by
              simp [List.nodup_append, hnd, hnotmem]
            rcases hip : env'.publicIP with _ | ip
            · simpa [postDomains, jsTruthy, hz', hr', hany', hip] using hpush
            · rcases hzid : env'.zoneID z' with _ | zid
              · simpa [postDomains, jsTruthy, hz', hr', hany', hip, hzid] using hpush
              · rcases hrid : env'.recordID zid r' with _ | rid <;>
                  by_cases hlast : st.lastIP = some ip <;>
                  simp only [postDomains, jsTruthy, hz', hr', hany', hip, hzid,
                    hrid, hlast] <;>
                  simpa [hz', hr', hlast] using hpush
          · simpa [postDomains, jsTruthy, hz', hr', hany'] using hnd
  · intro zf rf hnd
    rcases zf with _ | z' <;> rcases rf with _ | r'
    · simpa [deleteDomains, jsTruthy] using hnd
    · simpa [deleteDomains, jsTruthy] using hnd
    · simpa [deleteDomains, jsTruthy] using hnd
    · by_cases hz' : z' = ""
      · simpa [deleteDomains, jsTruthy, hz'] using hnd
      · by_cases hr' : r' = ""
        · simpa [deleteDomains, jsTruthy, hz', hr'] using hnd
        · rw [deleteDomains, if_neg (by simp [jsTruthy, hz', hr'])]
          dsimp only
          split
          · exact hnd
          · exact hnd.filter _

/-- Witness for C8 at a concrete input: re-adding `a.com`/`x.a.com`, which
state `stW` already contains. -/
theorem C8_duplicate_add_rejected_witness :
    postDomains envW stW (some "a.com") (some "x.a.com")
        = (stW, [], ⟨400, "該domain已存在。"⟩)
    ∧ (∀ env' zf rf, stW.domains.Nodup →
        (postDomains env' stW zf rf).1.domains.Nodup)
    ∧ (∀ zf rf, stW.domains.Nodup →
        (deleteDomains stW zf rf).1.domains.Nodup) :=
  C8_duplicate_add_rejected envW stW "a.com" "x.a.com"
    (by decide) (by decide) (by decide)

/-- C9 counterexample: the pass loop iterates the live `domains` array, not a
snapshot — starting a pass over `[dA]`, a concurrent POST that pushes `dB`
before the iterator finishes makes the same pass attempt `dB`, which was not
in the set when the pass started. -/
theorem C9_live_array_not_snapshot :
    (passRun ⟨[dA], 0, []⟩
        [.concurrentAdd dB, .attemptNext, .attemptNext]).attempted = [dA, dB]
    ∧ dB ∉ [dA] := by
  decide

/-- C9 (amended): the pass iterates the live array object, so a concurrent
Add (an in-place push) can extend the set of domains the in-flight pass
attempts; a concurrent Remove, however, rebinds the module variable to a new
filtered array and never affects the in-flight pass — in any interleaving
without concurrent Adds, the iterated array is unchanged and every attempted
domain was already in the pass's array (or already attempted) at the start. -/
theorem C9_snapshot_without_adds (s : PassState) (acts : List PassAction)
    (h : ∀ a ∈ acts, isConcurrentAdd a = false) :
    (passRun s acts).arr = s.arr
    ∧ ∀ d ∈ (passRun s acts).attempted, d ∈ s.attempted ∨ d ∈ s.arr := by
  induction acts generalizing s with
  | nil =>
    refine ⟨rfl, ?_⟩
    intro d hd
    exact Or.inl hd
  | cons a rest ih =>
    have hrest : ∀ b ∈ rest, isConcurrentAdd b = false := fun b hb =>
      h b (List.mem_cons_of_mem a hb)
    rcases a with _ | d0 | ⟨z0, r0⟩
    · rcases hg : s.arr[s.idx]? with _ | d1
      · have hstep : passStep s .attemptNext = s := by
          simp [passStep, hg]
        rw [passRun, hstep]
        exact ih s hrest
      · have hstep : passStep s .attemptNext
            = ⟨s.arr, s.idx + 1, s.attempted ++ [d1]⟩ := by
          simp [passStep, hg]
        have hd1 : d1 ∈ s.arr := List.getElem?_mem hg
        rw [passRun, hstep]
        obtain ⟨h1, h2⟩ := ih ⟨s.arr, s.idx + 1, s.attempted ++ [d1]⟩ hrest
        refine ⟨h1, ?_⟩
        intro d hd
        rcases h2 d hd with hmem | hmem
        · rcases List.mem_append.1 hmem with hm | hm
          · exact Or.inl hm
          · rw [List.mem_singleton] at hm
            subst hm
            exact Or.inr hd1
        · exact Or.inr hmem
    · have := h _ (List.mem_cons_self _ rest)
      simp [isConcurrentAdd] at this
    · have hstep : passStep s (.concurrentRemove z0 r0) = s := rfl
      rw [passRun, hstep]
      exact ih s hrest

/-- Witness for C9 (amended) at a concrete input: one attempt step and one
concurrent Remove, starting from a pass over `[dA]`. -/
theorem C9_snapshot_without_adds_witness :
    (passRun ⟨[dA], 0, []⟩
        [.attemptNext, .concurrentRemove "a.com" "x.a.com"]).arr = [dA]
    ∧ ∀ d ∈ (passRun ⟨[dA], 0, []⟩
        [.attemptNext, .concurrentRemove "a.com" "x.a.com"]).attempted,
        d ∈ ([] : List Domain) ∨ d ∈ [dA] :=
  C9_snapshot_without_adds ⟨[dA], 0, []⟩
    [.attemptNext, .concurrentRemove "a.com" "x.a.com"] (by decide)

/-- C10: a request whose `x-api-key` header is not exactly the configured
`API_KEY` — in particular any request when `API_KEY` is not configured — is
answered 401 with no state change and no events, for every route including
the read-only GET /domains. -/
theorem C10_auth_required (apiKeyCfg headerKey : Option String) (env : Env)
    (st : SysState) (req : Request)
    (h : headerKey ≠ apiKeyCfg ∨ apiKeyCfg = none) :
    handle apiKeyCfg headerKey env st req = (st, [], ⟨401, "未授權的請求。"⟩) := by
  have hauth : authenticate headerKey apiKeyCfg = false := by
    rcases headerKey with _ | k
    · rfl
    · by_cases hk : k = ""
      · simp [authenticate, hk]
      · simp only [authenticate, hk, if_false]
        rw [beq_eq_false_iff_ne]
        rcases h with h | h
        · exact fun hc => h hc.symm
        · subst h
          exact fun hc => Option.noConfusion hc
  simp [handle, hauth]

/-- Witness for C10 at a concrete input: a GET /domains request carrying a
key while `API_KEY` is not configured. -/
theorem C10_auth_required_witness :
    handle none (some "secret") envW stW Request.listDomains
      = (stW, [], ⟨401, "未授權的請求。"⟩) :=
  C10_auth_required none (some "secret") envW stW Request.listDomains
    (Or.inr rfl)
